import Mathlib

/-!
Shallow embedding of the MoonDev internship-application portal
(`src/app/lib/validation.ts`, `src/app/lib/imageUtils.ts`, the submit page,
the evaluate page and `src/app/api/send-email/route.ts`), together with
theorems settling the specification's claims about it.

Strings are Lean `String`s (lists of characters), sizes are `Nat`s, the
`submissions` table is a `List Submission`, and every external effect
(database update result, upload result, HTTP response) is an explicit
oracle argument; the functions return the new state together with a
record of the observable effects they performed.
-/

namespace MoonDev

/-- Translation of JavaScript `String.prototype.trim()`: remove whitespace
from both ends of the string. -/
def jsTrim (s : String) : String :=
  ⟨((s.data.dropWhile Char.isWhitespace).reverse.dropWhile Char.isWhitespace).reverse⟩

/-- Translation of JavaScript `s.endsWith(post)`: the string's last
`post.length` characters are exactly `post` (false when `s` is shorter
than `post`). -/
def jsEndsWith (s post : String) : Bool :=
  s.data.length ≥ post.data.length &&
    s.data.drop (s.data.length - post.data.length) == post.data

/-- Translation of `phone.replace(/\D/g, '')` in `validatePhoneNumber`
(`validation.ts` line 28): keep only the ASCII digit characters. -/
def stripNonDigits (phone : String) : String :=
  ⟨phone.data.filter Char.isDigit⟩

/-- The number of digit characters of a string (the length of the string
after stripping non-digits). -/
def digitCount (s : String) : Nat :=
  (stripNonDigits s).length

/-- `validatePhoneNumber` (`validation.ts` lines 26-31): strip all
non-digit characters and accept 7 to 15 remaining digits. -/
def validatePhoneNumber (phone : String) : Bool :=
  let digitsOnly := stripNonDigits phone
  7 ≤ digitsOnly.length && digitsOnly.length ≤ 15

/-- A character allowed by the character class `[^\s@]` of the e-mail
regular expression: neither whitespace nor `@`. -/
def isEmailChar (c : Char) : Bool :=
  !c.isWhitespace && !(c = '@')

/-- `validateEmail` (`validation.ts` lines 21-24): the test
`/^[^\s@]+@[^\s@]+\.[^\s@]+$/.test(email)`.  The regular expression
matches exactly the strings of the form `a ++ "@" ++ b ++ "." ++ c` with
`a`, `b`, `c` nonempty and free of whitespace and `@`.  Since `a` contains
no `@`, the split is necessarily at the first `@` of the string, and the
existence of the `b`/`c` split is equivalent to the remainder containing a
`.` that is neither its first nor its last character; this decision
procedure implements that characterisation. -/
def validateEmail (email : String) : Bool :=
  let a := email.data.takeWhile (fun c => !(c = '@'))
  match email.data.drop a.length with
  | [] => false
  | c :: d =>
      c = '@' && !a.isEmpty && a.all isEmailChar && d.all isEmailChar &&
        ((d.drop 1).dropLast.contains '.')

/-- A client-side file: name, size in bytes and MIME content type
(the fields of the browser `File` object that the code reads). -/
structure FileData where
  name : String
  size : Nat
  contentType : String
deriving DecidableEq, Repr, Inhabited

/-- `SubmissionFormData` (`validation.ts` lines 1-9): the developer's
draft; the two files are `null` until chosen. -/
structure SubmissionFormData where
  fullName : String
  phoneNumber : String
  location : String
  email : String
  hobbies : String
  profilePicture : Option FileData
  sourceCode : Option FileData
deriving DecidableEq, Repr

/-- `FormErrors` (`validation.ts` lines 11-19): every field is optional;
a key is present exactly when the field failed validation. -/
structure FormErrors where
  fullName : Option String := none
  phoneNumber : Option String := none
  location : Option String := none
  email : Option String := none
  hobbies : Option String := none
  profilePicture : Option String := none
  sourceCode : Option String := none
deriving DecidableEq, Repr

/-- `Object.keys(errors).length === 0`: no key is present. -/
def FormErrors.isEmpty (e : FormErrors) : Bool :=
  e.fullName.isNone && e.phoneNumber.isNone && e.location.isNone &&
    e.email.isNone && e.hobbies.isNone && e.profilePicture.isNone &&
    e.sourceCode.isNone

/-- `validateSubmissionForm` (`validation.ts` lines 33-92), field by field.
In JavaScript an empty string is falsy, so each `required` guard tests the
trimmed string against `""`. -/
def validateSubmissionForm (data : SubmissionFormData) : FormErrors where
  fullName :=
    if jsTrim data.fullName = "" then some "Full name is required"
    else if (jsTrim data.fullName).length < 2 then
      some "Full name must be at least 2 characters"
    else if (jsTrim data.fullName).length > 100 then
      some "Full name must be less than 100 characters"
    else none
  phoneNumber :=
    if jsTrim data.phoneNumber = "" then some "Phone number is required"
    else if !validatePhoneNumber data.phoneNumber then
      some "Please enter a valid phone number"
    else none
  location :=
    if jsTrim data.location = "" then some "Location is required"
    else if (jsTrim data.location).length < 2 then
      some "Location must be at least 2 characters"
    else if (jsTrim data.location).length > 100 then
      some "Location must be less than 100 characters"
    else none
  email :=
    if jsTrim data.email = "" then some "Email address is required"
    else if !validateEmail data.email then
      some "Please enter a valid email address"
    else none
  hobbies :=
    if jsTrim data.hobbies = "" then
      some "Please tell us about your hobbies and interests"
    else if (jsTrim data.hobbies).length < 20 then
      some "Please provide more detail (at least 20 characters)"
    else if (jsTrim data.hobbies).length > 1000 then
      some "Please keep your response under 1000 characters"
    else none
  profilePicture :=
    match data.profilePicture with
    | none => some "Profile picture is required"
    | some _ => none
  sourceCode :=
    match data.sourceCode with
    | none => some "Source code file is required"
    | some f =>
        if !(jsEndsWith f.name ".zip") then some "Source code must be a .zip file"
        else if f.size > 50 * 1024 * 1024 then
          some "Source code file must be less than 50MB"
        else none

/-- `validateImageFile`'s accepted content types (`imageUtils.ts` line 21). -/
def validImageTypes : List String :=
  ["image/jpeg", "image/jpg", "image/png", "image/webp"]

/-- The `{ valid, error? }` result of `validateImageFile`. -/
structure ImageValidation where
  valid : Bool
  error : Option String
deriving DecidableEq, Repr

/-- `validateImageFile` (`imageUtils.ts` lines 20-39): reject content
types outside the accepted list, then files over 20 MiB, else accept. -/
def validateImageFile (file : FileData) : ImageValidation :=
  if !(validImageTypes.contains file.contentType) then
    ⟨false, some "Please upload a valid image file (JPEG, PNG, or WebP)"⟩
  else if file.size > 20 * 1024 * 1024 then
    ⟨false, some "Image file is too large. Please select an image under 20MB"⟩
  else ⟨true, none⟩

/-- The `status` column of a `submissions` row. -/
inductive SubmissionStatus where
  | pending
  | accepted
  | rejected
deriving DecidableEq, Repr

/-- The `Submission` interface of the evaluate page / the `submissions`
table row.  `created_at` is modelled as a `Nat` timestamp. -/
structure Submission where
  id : String
  userId : String
  fullName : String
  phoneNumber : String
  location : String
  email : String
  hobbies : String
  profilePictureUrl : String
  sourceCodeUrl : String
  status : SubmissionStatus
  feedback : Option String
  createdAt : Nat
deriving DecidableEq, Repr

/-- A row of the `profiles` table (only the columns the code reads). -/
structure Profile where
  id : String
  role : String
deriving DecidableEq, Repr

/-- The result of a store operation that the code only inspects through
its `error` field. -/
inductive DbResult where
  | ok
  | err
deriving DecidableEq, Repr

/-- The submit page's duplicate check (`checkAuth`, submit page lines
64-73): `select("id").eq("user_id", user.id).single()`.  `single()`
returns a row (and hence `existingSubmission` is truthy) exactly when the
filter matches exactly one row; with zero or several matches it reports an
error and `data` is `null`. -/
def hasExistingSubmission (db : List Submission) (uid : String) : Bool :=
  (db.filter (fun r => r.userId == uid)).length == 1

/-- The state the submit page lands in after `checkAuth` finishes. -/
inductive SubmitEntry where
  /-- No authenticated user: `router.push("/login")`. -/
  | redirectLogin
  /-- Profile lookup failed or role is not `developer`: access denied and
  forced sign-out. -/
  | accessDenied
  /-- `hasSubmission` is set: the page renders the "Submission Received"
  card instead of the form, so no submit action exists. -/
  | blockedDuplicate
  /-- The form is rendered and `handleSubmit` is reachable. -/
  | formReady
deriving DecidableEq, Repr

/-- `checkAuth` of the submit page (lines 38-80): resolve the user, read
the profile role via `single()` (an error when no profile row matches),
require the `developer` role, then run the duplicate-submission check. -/
def checkAuthSubmit (user : Option String) (profiles : List Profile)
    (db : List Submission) : SubmitEntry :=
  match user with
  | none => .redirectLogin
  | some uid =>
      match profiles.find? (fun p => p.id == uid) with
      | none => .accessDenied
      | some p =>
          if p.role == "developer" then
            if hasExistingSubmission db uid then .blockedDuplicate
            else .formReady
          else .accessDenied

/-- Split a character list at every `'.'` (translation of JavaScript
`split(".")`, which yields one — possibly empty — segment per side of
each dot). -/
def splitOnDot : List Char → List (List Char)
  | [] => [[]]
  | c :: cs =>
      if c = '.' then [] :: splitOnDot cs
      else
        match splitOnDot cs with
        | [] => [[c]]
        | h :: t => (c :: h) :: t

/-- `file.name.split(".").pop()`: the last dot-separated component. -/
def fileExt (name : String) : String :=
  ⟨(splitOnDot name.data).getLastD []⟩

/-- `supabase.storage.from(bucket).getPublicUrl(path)`, modelled as the
bucket/path locator itself. -/
def publicUrl (bucket path : String) : String :=
  bucket ++ "/" ++ path

/-- The row inserted by `handleSubmit` (submit page lines 197-209):
trimmed text fields, the two public URLs and `status: "pending"`. -/
def buildSubmission (uid : String) (d : SubmissionFormData)
    (compressed archive : FileData) (newId : String) (now : Nat) : Submission where
  id := newId
  userId := uid
  fullName := jsTrim d.fullName
  phoneNumber := jsTrim d.phoneNumber
  location := jsTrim d.location
  email := jsTrim d.email
  hobbies := jsTrim d.hobbies
  profilePictureUrl :=
    publicUrl "profile-pictures" (uid ++ "/profile." ++ fileExt compressed.name)
  sourceCodeUrl :=
    publicUrl "source-code" (uid ++ "/source-code." ++ fileExt archive.name)
  status := .pending
  feedback := none
  createdAt := now

/-- The externally visible steps of `handleSubmit`, in source order. -/
inductive SubmitStep where
  | compress
  | uploadImage
  | uploadCode
  | insertRow
deriving DecidableEq, Repr

/-- The source-order list of `handleSubmit`'s steps. -/
def submitStepOrder : List SubmitStep :=
  [.compress, .uploadImage, .uploadCode, .insertRow]

/-- Oracles for the fallible operations of `handleSubmit`:
`compressImage` either returns the compressed file or throws, and each
store call either succeeds or reports an error. -/
structure SubmitOracles where
  compressed : Option FileData
  imageUpload : DbResult
  codeUpload : DbResult
  insertRes : DbResult
deriving DecidableEq, Repr

/-- What a `handleSubmit` attempt did: the steps it reached in order, the
resulting `submissions` table, and whether it reported success. -/
structure SubmitOutcome where
  steps : List SubmitStep
  db : List Submission
  success : Bool
deriving DecidableEq, Repr

/-- `handleSubmit` of the submit page (lines 140-225): validate the form
(abort on a non-empty error map), require a user id, then compress the
image, upload it, upload the archive and insert the row, throwing to the
`catch` block (which leaves the table untouched) at the first failure.
The archive file is read with `formData.sourceCode!`; validation has
already guaranteed its presence, so the default is never used. -/
def handleSubmit (d : SubmissionFormData) (userId : Option String)
    (newId : String) (now : Nat) (db : List Submission)
    (o : SubmitOracles) : SubmitOutcome :=
  if !(validateSubmissionForm d).isEmpty then ⟨[], db, false⟩
  else
    match userId with
    | none => ⟨[], db, false⟩
    | some uid =>
        match o.compressed with
        | none => ⟨[.compress], db, false⟩
        | some cf =>
            match o.imageUpload with
            | .err => ⟨[.compress, .uploadImage], db, false⟩
            | .ok =>
                match o.codeUpload with
                | .err => ⟨[.compress, .uploadImage, .uploadCode], db, false⟩
                | .ok =>
                    let archive := d.sourceCode.getD default
                    match o.insertRes with
                    | .err =>
                        ⟨[.compress, .uploadImage, .uploadCode, .insertRow],
                          db, false⟩
                    | .ok =>
                        ⟨[.compress, .uploadImage, .uploadCode, .insertRow],
                          db ++ [buildSubmission uid d cf archive newId now],
                          true⟩

/-- A page-level submission attempt: `handleSubmit` is reachable only when
`checkAuth` left the page in `formReady` (otherwise the form is not
rendered), so in every other entry state the table is untouched. -/
def submitSessionAttempt (uid : String) (profiles : List Profile)
    (db : List Submission) (d : SubmissionFormData) (newId : String)
    (now : Nat) (o : SubmitOracles) : List Submission :=
  if checkAuthSubmit (some uid) profiles db = .formReady then
    (handleSubmit d (some uid) newId now db o).db
  else db

/-- The argument of `handleDecision`: `"accepted"` or `"rejected"`. -/
inductive Verdict where
  | accepted
  | rejected
deriving DecidableEq, Repr

/-- The `status` value written for a verdict. -/
def Verdict.toStatus : Verdict → SubmissionStatus
  | .accepted => .accepted
  | .rejected => .rejected

/-- The evaluate page's component state that `handleDecision` reads and
writes: the loaded list, the selected submission and the feedback box. -/
structure EvalState where
  submissions : List Submission
  selectedSubmission : Option Submission
  feedback : String
deriving DecidableEq, Repr

/-- The outcome of the `fetch("/api/send-email", ...)` call as observed by
`handleDecision`: the response's `ok` flag, or the fetch promise
rejecting (network failure), which lands in the `catch` block. -/
inductive EmailResult where
  | respOk
  | respNotOk
  | fetchThrew
deriving DecidableEq, Repr

/-- The observable side effects of one `handleDecision` call. -/
structure DecisionEffects where
  /-- The `supabase...update(...)` call was issued. -/
  updateAttempted : Bool := false
  /-- The `fetch("/api/send-email", ...)` request was issued. -/
  emailRequested : Bool := false
  /-- `toast.success(...)` ran. -/
  successToast : Bool := false
  /-- `toast.error(...)` ran. -/
  errorToast : Bool := false
deriving DecidableEq, Repr

/-- The result of a decision attempt: new component state, new
`submissions` table and the effects performed. -/
structure DecisionResult where
  state : EvalState
  db : List Submission
  effects : DecisionEffects
deriving DecidableEq, Repr

/-- The table mutation of the decision step (evaluate page lines 286-292):
`update({status, feedback}).eq("id", sid)`. -/
def applyDecisionUpdate (db : List Submission) (sid : String)
    (status : SubmissionStatus) (fb : String) : List Submission :=
  db.map fun r =>
    if r.id = sid then { r with status := status, feedback := some fb } else r

/-- Descending insertion by `createdAt` (newest first). -/
def insertByCreatedDesc (r : Submission) : List Submission → List Submission
  | [] => [r]
  | x :: xs =>
      if x.createdAt ≤ r.createdAt then r :: x :: xs
      else x :: insertByCreatedDesc r xs

/-- `loadSubmissions` (evaluate page lines 217-236):
`select("*").order("created_at", {ascending: false})` — the full table,
newest first. -/
def loadSubmissions (db : List Submission) : List Submission :=
  db.foldr insertByCreatedDesc []

/-- `handleDecision` (evaluate page lines 274-332).  Guards: no selection
is a silent no-op; empty/whitespace-only feedback shows an error toast
and returns before any network call.  Then the update is issued; an
update error throws to `catch` (error toast, nothing else changes).  On a
successful update the notification is fetched; a non-`ok` response is
only logged, after which — exactly as after an `ok` response — the
success toast fires, the selection is cleared, the feedback box is reset
and the list is reloaded.  A fetch rejection lands in `catch` after the
update has already been persisted. -/
def handleDecision (st : EvalState) (db : List Submission)
    (decision : Verdict) (updateRes : DbResult) (emailRes : EmailResult) :
    DecisionResult :=
  match st.selectedSubmission with
  | none => ⟨st, db, {}⟩
  | some sel =>
      if jsTrim st.feedback = "" then
        ⟨st, db, { errorToast := true }⟩
      else
        match updateRes with
        | .err => ⟨st, db, { updateAttempted := true, errorToast := true }⟩
        | .ok =>
            let db1 := applyDecisionUpdate db sel.id decision.toStatus
              (jsTrim st.feedback)
            match emailRes with
            | .fetchThrew =>
                ⟨st, db1,
                  { updateAttempted := true, emailRequested := true,
                    errorToast := true }⟩
            | _ =>
                ⟨{ submissions := loadSubmissions db1,
                   selectedSubmission := none, feedback := "" },
                  db1,
                  { updateAttempted := true, emailRequested := true,
                    successToast := true }⟩

/-- Whether the evaluate page can fire `handleDecision` at all (lines
521-538): the Accept/Reject buttons are rendered only when the selected
submission's status is `pending`, and are `disabled` while `processing`
or while `feedback.trim()` is empty. -/
def decisionButtonsEnabled (st : EvalState) (processing : Bool) : Bool :=
  match st.selectedSubmission with
  | none => false
  | some sel =>
      sel.status == .pending && !processing && !(jsTrim st.feedback = "")

/-- A decision attempt at the page level: `handleDecision` runs only when
the buttons are rendered and enabled; otherwise nothing happens. -/
def attemptDecision (st : EvalState) (db : List Submission)
    (processing : Bool) (decision : Verdict) (updateRes : DbResult)
    (emailRes : EmailResult) : DecisionResult :=
  if decisionButtonsEnabled st processing then
    handleDecision st db decision updateRes emailRes
  else ⟨st, db, {}⟩

/-- A JSON value of the request body, as far as the route's falsiness
checks can distinguish them. -/
inductive JVal where
  | jstr (s : String)
  | jnum (n : Int)
  | jbool (b : Bool)
  | jnull
deriving DecidableEq, Repr

/-- JavaScript truthiness of a JSON value. -/
def JVal.truthy : JVal → Bool
  | .jstr s => !(s = "")
  | .jnum n => !(n = 0)
  | .jbool b => b
  | .jnull => false

/-- Truthiness of a possibly-absent JSON field (`undefined` is falsy). -/
def truthyOpt : Option JVal → Bool
  | none => false
  | some v => v.truthy

/-- The destructured request body of `POST /api/send-email`:
`{ to, name, decision, feedback }`, each key possibly absent. -/
structure EmailRequest where
  toAddr : Option JVal
  name : Option JVal
  decision : Option JVal
  feedback : Option JVal
deriving DecidableEq, Repr

/-- The Mailjet credentials from the environment; `process.env.X` is
`undefined` when unset, and an empty string is falsy too. -/
structure EmailEnv where
  apiKey : Option String
  secretKey : Option String
deriving DecidableEq, Repr

/-- A falsy environment string: unset or empty. -/
def envFalsy : Option String → Bool
  | none => true
  | some s => s == ""

/-- The JSON bodies the route can answer with. -/
inductive RespBody where
  /-- `{error: "Missing required fields"}` -/
  | missingFields
  /-- `{error: "Email service not configured"}` -/
  | notConfigured
  /-- `{error: message}` produced by the `catch` block. -/
  | errCaught
  /-- `{success: true}` -/
  | success
deriving DecidableEq, Repr

/-- The `ok` flag of the upstream Mailjet `fetch` response. -/
inductive UpstreamResult where
  | ok
  | notOk
deriving DecidableEq, Repr

/-- What one `POST /api/send-email` call produced: HTTP status, body, and
whether the upstream send was attempted at all. -/
structure PostResult where
  status : Nat
  body : RespBody
  sendAttempted : Bool
deriving DecidableEq, Repr

/-- `POST` of `route.ts` (lines 3-149).  `request.json()` may throw
(modelled by `req = none`), which the `catch` block turns into a 500.
Then: any falsy field yields `400 missingFields`; falsy credentials yield
`500 notConfigured`; a non-`ok` upstream response throws
(`500 errCaught`); otherwise `200 {success: true}`. -/
def postSendEmail (env : EmailEnv) (req : Option EmailRequest)
    (upstream : UpstreamResult) : PostResult :=
  match req with
  | none => ⟨500, .errCaught, false⟩
  | some r =>
      if !truthyOpt r.toAddr || !truthyOpt r.name || !truthyOpt r.decision ||
          !truthyOpt r.feedback then
        ⟨400, .missingFields, false⟩
      else if envFalsy env.apiKey || envFalsy env.secretKey then
        ⟨500, .notConfigured, false⟩
      else
        match upstream with
        | .notOk => ⟨500, .errCaught, true⟩
        | .ok => ⟨200, .success, true⟩

/-! ## Helper lemmas -/

theorem string_eq_empty_iff (s : String) : s = "" ↔ s.data = [] := by
  constructor
  · intro h; subst h; rfl
  · intro h
    cases s with
    | mk l => cases h; rfl

theorem isDigit_eq_false_of_isWhitespace {c : Char}
    (h : c.isWhitespace = true) : c.isDigit = false := by
  simp only [Char.isWhitespace, Bool.or_eq_true, decide_eq_true_eq] at h
  rcases h with ((h | h) | h) | h <;> subst h <;> decide

theorem all_whitespace_of_jsTrim_eq_empty {s : String} (h : jsTrim s = "") :
    ∀ c ∈ s.data, c.isWhitespace = true := by
  have hd : ((s.data.dropWhile Char.isWhitespace).reverse.dropWhile
      Char.isWhitespace).reverse = [] :=
    (string_eq_empty_iff _).mp h
  rw [List.reverse_eq_nil_iff] at hd
  have h2 : ∀ c ∈ s.data.dropWhile Char.isWhitespace, c.isWhitespace = true := by
    intro c hc
    exact List.dropWhile_eq_nil_iff.mp hd c (List.mem_reverse.mpr hc)
  intro c hc
  rw [← List.takeWhile_append_dropWhile Char.isWhitespace s.data] at hc
  rcases List.mem_append.mp hc with hc | hc
  · exact List.mem_takeWhile_imp hc
  · exact h2 c hc

theorem digitCount_eq_zero_of_jsTrim_eq_empty {s : String}
    (h : jsTrim s = "") : digitCount s = 0 := by
  have hws := all_whitespace_of_jsTrim_eq_empty h
  show (s.data.filter Char.isDigit).length = 0
  rw [List.length_eq_zero, List.filter_eq_nil_iff]
  intro c hc hdig
  rw [isDigit_eq_false_of_isWhitespace (hws c hc)] at hdig
  cases hdig

theorem validatePhoneNumber_eq_true_iff (s : String) :
    validatePhoneNumber s = true ↔ 7 ≤ digitCount s ∧ digitCount s ≤ 15 := by
  simp only [validatePhoneNumber, digitCount, Bool.and_eq_true,
    decide_eq_true_eq]

theorem mem_at_of_validateEmail {s : String} (h : validateEmail s = true) :
    '@' ∈ s.data := by
  simp only [validateEmail] at h
  rcases hd : s.data.drop
      (s.data.takeWhile (fun c => !(c = '@'))).length with _ | ⟨c, d⟩ <;>
    rw [hd] at h
  · simp at h
  · simp only [Bool.and_eq_true, decide_eq_true_eq] at h
    obtain ⟨⟨⟨⟨hc, _⟩, _⟩, _⟩, _⟩ := h
    subst hc
    exact List.mem_of_mem_drop (hd ▸ List.mem_cons_self _ _)

theorem validateEmail_eq_false_of_jsTrim_eq_empty {s : String}
    (h : jsTrim s = "") : validateEmail s = false := by
  rcases hv : validateEmail s with _ | _
  · rfl
  · have hat := mem_at_of_validateEmail hv
    have := all_whitespace_of_jsTrim_eq_empty h '@' hat
    cases this

theorem jsTrim_length_eq_zero_of_eq_empty {s : String} (h : jsTrim s = "") :
    (jsTrim s).length = 0 := by
  rw [h]; rfl

theorem lenRangeChain (t : String) (lo hi : Nat) (m1 m2 m3 : String)
    (hlo : 0 < lo) :
    (if t = "" then some m1
     else if t.length < lo then some m2
     else if t.length > hi then some m3
     else none) = none ↔ lo ≤ t.length ∧ t.length ≤ hi := by
  split_ifs with h1 h2 h3
  · subst h1
    have h0 : ("" : String).length = 0 := rfl
    constructor
    · intro hc; cases hc
    · intro hh; rw [h0] at hh; omega
  · constructor
    · intro hc; cases hc
    · intro hh; omega
  · constructor
    · intro hc; cases hc
    · intro hh; omega
  · constructor
    · intro _; omega
    · intro _; rfl

theorem drop_length_takeWhile (p : Char → Bool) (l : List Char) :
    l.drop (l.takeWhile p).length = l.dropWhile p := by
  calc l.drop (l.takeWhile p).length
      = (l.takeWhile p ++ l.dropWhile p).drop (l.takeWhile p).length := by
        rw [List.takeWhile_append_dropWhile]
    _ = l.dropWhile p := List.drop_left _ _

theorem dropWhile_append_cons {p : Char → Bool} (a : List Char) (y : Char)
    (r : List Char) (ha : ∀ x ∈ a, p x = true) (hy : p y = false) :
    (a ++ y :: r).dropWhile p = y :: r := by
  induction a with
  | nil => simp [List.dropWhile_cons, hy]
  | cons x xs ih =>
      have hx : p x = true := ha x (List.mem_cons_self _ _)
      simp only [List.cons_append, List.dropWhile_cons, hx, if_true]
      exact ih fun z hz => ha z (List.mem_cons_of_mem _ hz)

theorem takeWhile_append_cons {p : Char → Bool} (a : List Char) (y : Char)
    (r : List Char) (ha : ∀ x ∈ a, p x = true) (hy : p y = false) :
    (a ++ y :: r).takeWhile p = a := by
  induction a with
  | nil => simp [List.takeWhile_cons, hy]
  | cons x xs ih =>
      have hx : p x = true := ha x (List.mem_cons_self _ _)
      simp only [List.cons_append, List.takeWhile_cons, hx, if_true]
      rw [ih fun z hz => ha z (List.mem_cons_of_mem _ hz)]

theorem not_at_of_isEmailChar {x : Char} (hx : isEmailChar x = true) :
    (!(x = '@') : Bool) = true := by
  simp only [isEmailChar, Bool.and_eq_true] at hx
  simpa using hx.2

/-- The decision procedure `validateEmail` accepts exactly the strings of
the shape matched by `/^[^\s@]+@[^\s@]+\.[^\s@]+$/`: a nonempty local
part, `@`, a nonempty domain part, a dot and a nonempty tail, with all
three parts free of whitespace and `@`. -/
theorem validateEmail_iff_shape (s : String) :
    validateEmail s = true ↔
      ∃ a b c : List Char,
        s.data = a ++ '@' :: (b ++ '.' :: c) ∧ a ≠ [] ∧ b ≠ [] ∧ c ≠ [] ∧
        a.all isEmailChar = true ∧ b.all isEmailChar = true ∧
        c.all isEmailChar = true := by
  constructor
  · intro h
    simp only [validateEmail] at h
    rw [drop_length_takeWhile] at h
    rcases hd : s.data.dropWhile (fun c => !(c = '@')) with _ | ⟨y, d⟩ <;>
      rw [hd] at h
    · simp at h
    · simp only [Bool.and_eq_true, decide_eq_true_eq] at h
      obtain ⟨⟨⟨⟨hy, hane⟩, haall⟩, hdall⟩, hdot⟩ := h
      subst hy
      have hsplit : s.data =
          s.data.takeWhile (fun c => !(c = '@')) ++ '@' :: d := by
        conv_lhs =>
          rw [← List.takeWhile_append_dropWhile (fun c => !(c = '@')) s.data]
        rw [hd]
      have hdotmem : '.' ∈ (d.drop 1).dropLast := by
        rcases List.contains_iff_exists_mem_beq.mp hdot with ⟨x, hx, hbeq⟩
        rw [eq_of_beq hbeq]
        exact hx
      obtain ⟨u, v, huv⟩ := List.append_of_mem hdotmem
      rcases d with _ | ⟨d₀, d'⟩
      · simp at huv
      · have hdrop1 : (d₀ :: d').drop 1 = d' := rfl
        rw [hdrop1] at huv
        have hd'ne : d' ≠ [] := by
          intro he; rw [he] at huv; simp at huv
        obtain ⟨y, hy⟩ : ∃ y, d' = (u ++ '.' :: v) ++ [y] := by
          refine ⟨d'.getLast hd'ne, ?_⟩
          conv_lhs => rw [← List.dropLast_concat_getLast hd'ne]
          rw [huv]
        have hdmem : ∀ x ∈ d₀ :: d', isEmailChar x = true :=
          List.all_eq_true.mp hdall
        refine ⟨s.data.takeWhile (fun c => !(c = '@')), d₀ :: u,
          v ++ [y], ?_, ?_, by simp, by simp, haall, ?_, ?_⟩
        · conv_lhs => rw [hsplit]
          rw [hy]
          simp [List.cons_append, List.append_assoc]
        · intro he
          rw [he] at hane
          simp at hane
        · rw [List.all_eq_true]
          intro x hx
          rcases List.mem_cons.mp hx with rfl | hxu
          · exact hdmem x (List.mem_cons_self _ _)
          · refine hdmem x (List.mem_cons_of_mem _ ?_)
            rw [hy]
            exact List.mem_append_left _ (List.mem_append_left _ hxu)
        · rw [List.all_eq_true]
          intro x hx
          rcases List.mem_append.mp hx with hxv | hxl
          · refine hdmem x (List.mem_cons_of_mem _ ?_)
            rw [hy]
            exact List.mem_append_left _
              (List.mem_append_right _ (List.mem_cons_of_mem _ hxv))
          · rw [List.mem_singleton.mp hxl]
            refine hdmem y (List.mem_cons_of_mem _ ?_)
            rw [hy]
            exact List.mem_append_right _ (List.mem_singleton_self _)
  · rintro ⟨a, b, c, hsd, hane, hbne, hcne, haall, hball, hcall⟩
    have haq : ∀ x ∈ a, (!(x = '@') : Bool) = true := fun x hx =>
      not_at_of_isEmailChar (List.all_eq_true.mp haall x hx)
    simp only [validateEmail]
    rw [drop_length_takeWhile, hsd,
      dropWhile_append_cons a '@' _ haq (by decide),
      takeWhile_append_cons a '@' _ haq (by decide)]
    have h2 : a.isEmpty = false := by
      cases a
      · exact absurd rfl hane
      · rfl
    have h3 : (b ++ '.' :: c).all isEmailChar = true := by
      rw [List.all_eq_true]
      intro x hx
      rcases List.mem_append.mp hx with hxb | hxc
      · exact List.all_eq_true.mp hball x hxb
      · rcases List.mem_cons.mp hxc with rfl | hxc
        · decide
        · exact List.all_eq_true.mp hcall x hxc
    have h4 : (((b ++ '.' :: c).drop 1).dropLast).contains '.' = true := by
      rcases b with _ | ⟨b₀, b'⟩
      · exact absurd rfl hbne
      · have hdrop : ((b₀ :: b' ++ '.' :: c).drop 1) = b' ++ '.' :: c := rfl
        rw [hdrop, List.dropLast_append_cons]
        rcases c with _ | ⟨c₀, c'⟩
        · exact absurd rfl hcne
        · rw [List.dropLast_cons₂]
          exact List.contains_iff_exists_mem_beq.mpr
            ⟨'.', List.mem_append_right _ (List.mem_cons_self _ _), by decide⟩
    simp only [Bool.and_eq_true]
    exact ⟨⟨⟨⟨by decide, by rw [h2]; rfl⟩, haall⟩, h3⟩, h4⟩

theorem formErrors_isEmpty_iff (e : FormErrors) :
    e.isEmpty = true ↔
      e.fullName = none ∧ e.phoneNumber = none ∧ e.location = none ∧
      e.email = none ∧ e.hobbies = none ∧ e.profilePicture = none ∧
      e.sourceCode = none := by
  simp [FormErrors.isEmpty, Option.isNone_iff_eq_none, and_assoc]

theorem validateSubmissionForm_fullName (d : SubmissionFormData) :
    (validateSubmissionForm d).fullName = none ↔
      2 ≤ (jsTrim d.fullName).length ∧ (jsTrim d.fullName).length ≤ 100 := by
  simp only [validateSubmissionForm]
  exact lenRangeChain _ 2 100 _ _ _ (by omega)

theorem validateSubmissionForm_location (d : SubmissionFormData) :
    (validateSubmissionForm d).location = none ↔
      2 ≤ (jsTrim d.location).length ∧ (jsTrim d.location).length ≤ 100 := by
  simp only [validateSubmissionForm]
  exact lenRangeChain _ 2 100 _ _ _ (by omega)

theorem validateSubmissionForm_hobbies (d : SubmissionFormData) :
    (validateSubmissionForm d).hobbies = none ↔
      20 ≤ (jsTrim d.hobbies).length ∧ (jsTrim d.hobbies).length ≤ 1000 := by
  simp only [validateSubmissionForm]
  exact lenRangeChain _ 20 1000 _ _ _ (by omega)

theorem validateSubmissionForm_phoneNumber (d : SubmissionFormData) :
    (validateSubmissionForm d).phoneNumber = none ↔
      7 ≤ digitCount d.phoneNumber ∧ digitCount d.phoneNumber ≤ 15 := by
  simp only [validateSubmissionForm]
  split_ifs with h1 h2
  · have h0 := digitCount_eq_zero_of_jsTrim_eq_empty h1
    constructor
    · intro hc; cases hc
    · intro hh; omega
  · have h3 : validatePhoneNumber d.phoneNumber = false := by simpa using h2
    constructor
    · intro hc; cases hc
    · intro hh
      rw [(validatePhoneNumber_eq_true_iff _).mpr hh] at h3; cases h3
  · have h3 : validatePhoneNumber d.phoneNumber = true := by
      rcases hv : validatePhoneNumber d.phoneNumber
      · rw [hv] at h2; simp at h2
      · rfl
    exact ⟨fun _ => (validatePhoneNumber_eq_true_iff _).mp h3, fun _ => rfl⟩

theorem validateSubmissionForm_email (d : SubmissionFormData) :
    (validateSubmissionForm d).email = none ↔ validateEmail d.email = true := by
  simp only [validateSubmissionForm]
  split_ifs with h1 h2
  · have h0 := validateEmail_eq_false_of_jsTrim_eq_empty h1
    constructor
    · intro hc; cases hc
    · intro hh; rw [hh] at h0; cases h0
  · have h3 : validateEmail d.email = false := by simpa using h2
    constructor
    · intro hc; cases hc
    · intro hh; rw [hh] at h3; cases h3
  · have h3 : validateEmail d.email = true := by
      rcases hv : validateEmail d.email
      · rw [hv] at h2; simp at h2
      · rfl
    exact ⟨fun _ => h3, fun _ => rfl⟩

theorem validateSubmissionForm_profilePicture (d : SubmissionFormData) :
    (validateSubmissionForm d).profilePicture = none ↔
      d.profilePicture.isSome = true := by
  simp only [validateSubmissionForm]
  cases hp : d.profilePicture <;> simp

theorem validateSubmissionForm_sourceCode (d : SubmissionFormData) :
    (validateSubmissionForm d).sourceCode = none ↔
      ∃ f, d.sourceCode = some f ∧ jsEndsWith f.name ".zip" = true ∧
        f.size ≤ 50 * 1024 * 1024 := by
  simp only [validateSubmissionForm]
  cases hsc : d.sourceCode with
  | none => simp
  | some f =>
      dsimp only
      split_ifs with h1 h2
      · have hz : jsEndsWith f.name ".zip" = false := by simpa using h1
        constructor
        · intro hc; cases hc
        · rintro ⟨g, hg, hzip, _⟩
          cases hg
          rw [hzip] at hz; cases hz
      · constructor
        · intro hc; cases hc
        · rintro ⟨g, hg, _, hsize⟩
          cases hg
          omega
      · constructor
        · intro _
          exact ⟨f, rfl, by simpa using h1, by omega⟩
        · intro _; rfl

/-- C4: `validateSubmissionForm` returns a map keyed only by failing
fields — each key is absent exactly when that field's rule holds — and
the map is empty if and only if the full name and location trim to 2-100
characters, the phone has 7-15 digits after stripping non-digits, the
email matches the `local@domain.tld` regular expression (equivalently,
by the last conjunct, decomposes as nonempty whitespace-and-`@`-free
local, domain and tail parts around `@` and `.`), the hobbies trim to
20-1000 characters, a profile picture is present, and a source archive
is present with a `.zip` name of at most 50 MiB. -/
theorem validate_form_error_map (d : SubmissionFormData) :
    ((validateSubmissionForm d).fullName = none ↔
      2 ≤ (jsTrim d.fullName).length ∧ (jsTrim d.fullName).length ≤ 100) ∧
    ((validateSubmissionForm d).phoneNumber = none ↔
      7 ≤ digitCount d.phoneNumber ∧ digitCount d.phoneNumber ≤ 15) ∧
    ((validateSubmissionForm d).location = none ↔
      2 ≤ (jsTrim d.location).length ∧ (jsTrim d.location).length ≤ 100) ∧
    ((validateSubmissionForm d).email = none ↔
      validateEmail d.email = true) ∧
    ((validateSubmissionForm d).hobbies = none ↔
      20 ≤ (jsTrim d.hobbies).length ∧ (jsTrim d.hobbies).length ≤ 1000) ∧
    ((validateSubmissionForm d).profilePicture = none ↔
      d.profilePicture.isSome = true) ∧
    ((validateSubmissionForm d).sourceCode = none ↔
      ∃ f, d.sourceCode = some f ∧ jsEndsWith f.name ".zip" = true ∧
        f.size ≤ 50 * 1024 * 1024) ∧
    ((validateSubmissionForm d).isEmpty = true ↔
      (2 ≤ (jsTrim d.fullName).length ∧ (jsTrim d.fullName).length ≤ 100) ∧
      (7 ≤ digitCount d.phoneNumber ∧ digitCount d.phoneNumber ≤ 15) ∧
      (2 ≤ (jsTrim d.location).length ∧ (jsTrim d.location).length ≤ 100) ∧
      validateEmail d.email = true ∧
      (20 ≤ (jsTrim d.hobbies).length ∧ (jsTrim d.hobbies).length ≤ 1000) ∧
      d.profilePicture.isSome = true ∧
      ∃ f, d.sourceCode = some f ∧ jsEndsWith f.name ".zip" = true ∧
        f.size ≤ 50 * 1024 * 1024) ∧
    (validateEmail d.email = true ↔
      ∃ a b c : List Char,
        d.email.data = a ++ '@' :: (b ++ '.' :: c) ∧ a ≠ [] ∧ b ≠ [] ∧
        c ≠ [] ∧ a.all isEmailChar = true ∧ b.all isEmailChar = true ∧
        c.all isEmailChar = true) := by
  refine ⟨validateSubmissionForm_fullName d, validateSubmissionForm_phoneNumber d,
    validateSubmissionForm_location d, validateSubmissionForm_email d,
    validateSubmissionForm_hobbies d, validateSubmissionForm_profilePicture d,
    validateSubmissionForm_sourceCode d, ?_, validateEmail_iff_shape d.email⟩
  rw [formErrors_isEmpty_iff,
    validateSubmissionForm_fullName d, validateSubmissionForm_phoneNumber d,
    validateSubmissionForm_location d, validateSubmissionForm_email d,
    validateSubmissionForm_hobbies d, validateSubmissionForm_profilePicture d,
    validateSubmissionForm_sourceCode d]

/-- C7: `validatePhoneNumber`'s verdict depends only on the number of
digit characters left after stripping non-digits; it accepts exactly the
strings with 7 to 15 digits, so `"+1 555-123-4567"` is valid and `"123"`
is invalid. -/
theorem phone_validity_by_digit_count :
    (∀ s t : String, digitCount s = digitCount t →
        validatePhoneNumber s = validatePhoneNumber t) ∧
    (∀ s : String, validatePhoneNumber s = true ↔
        7 ≤ digitCount s ∧ digitCount s ≤ 15) ∧
    validatePhoneNumber "+1 555-123-4567" = true ∧
    validatePhoneNumber "123" = false := by
  refine ⟨?_, validatePhoneNumber_eq_true_iff, by decide, by decide⟩
  intro s t h
  simp only [validatePhoneNumber]
  rw [show (stripNonDigits s).length = digitCount s from rfl,
    show (stripNonDigits t).length = digitCount t from rfl, h]

/-- C8: `validateImageFile` accepts a file exactly when its content type
is one of the accepted JPEG/PNG/WebP types and its size is at most
20 MiB; all other files are rejected. -/
theorem image_validation_type_and_size (f : FileData) :
    (validateImageFile f).valid = true ↔
      f.contentType ∈ validImageTypes ∧ f.size ≤ 20 * 1024 * 1024 := by
  have hmem : validImageTypes.contains f.contentType = true ↔
      f.contentType ∈ validImageTypes := by
    constructor
    · intro h
      rcases List.contains_iff_exists_mem_beq.mp h with ⟨b, hb, hbeq⟩
      rw [eq_of_beq hbeq]; exact hb
    · intro h
      exact List.contains_iff_exists_mem_beq.mpr ⟨_, h, by simp⟩
  unfold validateImageFile
  split_ifs with h1 h2
  · have h1f : validImageTypes.contains f.contentType = false := by
      simpa using h1
    constructor
    · intro hv; cases hv
    · rintro ⟨hm, _⟩
      rw [hmem.mpr hm] at h1f
      cases h1f
  · constructor
    · intro hv; cases hv
    · rintro ⟨_, hs⟩; omega
  · constructor
    · intro _
      refine ⟨?_, by omega⟩
      cases hcc : validImageTypes.contains f.contentType with
      | false => rw [hcc] at h1; simp at h1
      | true => exact hmem.mp hcc
    · intro _; rfl

/-! ## Sample data for instantiating the theorems -/

/-- A pending submission row used to instantiate the theorems. -/
def sampleSub : Submission where
  id := "s1"
  userId := "u1"
  fullName := "John Doe"
  phoneNumber := "+1 555-123-4567"
  location := "City, Country"
  email := "john@example.com"
  hobbies := "I like hiking and reading books"
  profilePictureUrl := "profile-pictures/u1/profile.png"
  sourceCodeUrl := "source-code/u1/source-code.zip"
  status := .pending
  feedback := none
  createdAt := 1

/-- A draft that passes `validateSubmissionForm`. -/
def sampleDraft : SubmissionFormData where
  fullName := "John Doe"
  phoneNumber := "+1 555-123-4567"
  location := "City, Country"
  email := "john@example.com"
  hobbies := "I like hiking and reading books"
  profilePicture := some ⟨"p.png", 5, "image/png"⟩
  sourceCode := some ⟨"code.zip", 10, "application/zip"⟩

/-! ## Review-workflow claims -/

/-- C9: when the decision's database update reports an error,
`handleDecision` aborts before the notification step: the send-email
request is never issued, no success is reported, the table is unchanged
and the selection and feedback state are untouched. -/
theorem update_error_aborts_before_notification (st : EvalState)
    (db : List Submission) (dec : Verdict) (er : EmailResult) :
    (handleDecision st db dec .err er).effects.emailRequested = false ∧
    (handleDecision st db dec .err er).effects.successToast = false ∧
    (handleDecision st db dec .err er).db = db ∧
    (handleDecision st db dec .err er).state.selectedSubmission =
      st.selectedSubmission ∧
    (handleDecision st db dec .err er).state.feedback = st.feedback := by
  cases hsel : st.selectedSubmission with
  | none => simp [handleDecision, hsel]
  | some sel =>
      by_cases hfb : jsTrim st.feedback = "" <;>
        simp [handleDecision, hsel, hfb]

/-- C6: once the decision update has been persisted, a non-`ok` response
from `/api/send-email` is never rolled back: the run is identical to the
successful-notification run — the updated table is kept, success is
reported, the selection is cleared, the feedback box is reset and the
list is refreshed from the updated table. -/
theorem notification_failure_never_rolls_back (st : EvalState)
    (db : List Submission) (dec : Verdict) (sel : Submission)
    (hsel : st.selectedSubmission = some sel)
    (hfb : ¬ jsTrim st.feedback = "") :
    handleDecision st db dec .ok .respNotOk =
      handleDecision st db dec .ok .respOk ∧
    (handleDecision st db dec .ok .respNotOk).db =
      applyDecisionUpdate db sel.id dec.toStatus (jsTrim st.feedback) ∧
    (handleDecision st db dec .ok .respNotOk).effects.successToast = true ∧
    (handleDecision st db dec .ok .respNotOk).state.selectedSubmission =
      none ∧
    (handleDecision st db dec .ok .respNotOk).state.feedback = "" ∧
    (handleDecision st db dec .ok .respNotOk).state.submissions =
      loadSubmissions ((handleDecision st db dec .ok .respNotOk).db) := by
  simp [handleDecision, hsel, hfb]

theorem notification_failure_never_rolls_back_witness :
    (¬ jsTrim "Great work" = "") ∧
    (handleDecision ⟨[sampleSub], some sampleSub, "Great work"⟩ [sampleSub]
        .accepted .ok .respNotOk).effects.successToast = true :=
  ⟨by decide,
    (notification_failure_never_rolls_back
      ⟨[sampleSub], some sampleSub, "Great work"⟩ [sampleSub] .accepted
      sampleSub rfl (by decide)).2.2.1⟩

/-- C1: a decision attempt on the evaluate page is rejected locally —
the component state and the table are unchanged and neither the update
nor the send-email request is issued — whenever the feedback is empty or
whitespace-only, or the selected submission's status is not `pending`
(for a non-`pending` selection the Accept/Reject buttons are not even
rendered). -/
theorem decision_rejected_locally (st : EvalState) (db : List Submission)
    (processing : Bool) (dec : Verdict) (ur : DbResult) (er : EmailResult)
    (sel : Submission) (hsel : st.selectedSubmission = some sel)
    (h : jsTrim st.feedback = "" ∨ sel.status ≠ .pending) :
    attemptDecision st db processing dec ur er = ⟨st, db, {}⟩ := by
  have hen : decisionButtonsEnabled st processing = false := by
    unfold decisionButtonsEnabled
    rw [hsel]
    rcases h with h | h
    · simp [h]
    · simp [beq_eq_false_iff_ne.mpr h]
  unfold attemptDecision
  rw [hen]
  simp

theorem decision_rejected_locally_witness :
    attemptDecision ⟨[sampleSub], some sampleSub, "   "⟩ [sampleSub] false
        .accepted .ok .respOk =
      ⟨⟨[sampleSub], some sampleSub, "   "⟩, [sampleSub], {}⟩ :=
  decision_rejected_locally _ _ _ _ _ _ sampleSub rfl (Or.inl (by decide))

/-! ## Submission-workflow claims -/

/-- C3: `handleSubmit`'s externally visible steps always form a prefix of
the strict order compress → upload image → upload archive → insert; if
any step fails the table is unchanged (no `Submission` row is created by
that attempt), and if a step before the insert fails the insert is never
reached. -/
theorem submit_steps_ordered_abort_on_failure (d : SubmissionFormData)
    (userId : Option String) (newId : String) (now : Nat)
    (db : List Submission) (o : SubmitOracles) :
    (∃ k, (handleSubmit d userId newId now db o).steps =
        submitStepOrder.take k) ∧
    ((o.compressed = none ∨ o.imageUpload = .err ∨ o.codeUpload = .err ∨
        o.insertRes = .err) →
      (handleSubmit d userId newId now db o).db = db) ∧
    ((o.compressed = none ∨ o.imageUpload = .err ∨ o.codeUpload = .err) →
      SubmitStep.insertRow ∉ (handleSubmit d userId newId now db o).steps) := by
  obtain ⟨oc, oi, ocd, oir⟩ := o
  cases hV : (validateSubmissionForm d).isEmpty <;>
    cases userId <;> cases oc <;> cases oi <;> cases ocd <;> cases oir <;>
    simp only [handleSubmit, hV, Bool.not_false, Bool.not_true, if_true,
      if_false] <;>
    refine ⟨?_, ?_, ?_⟩ <;>
    first
      | exact ⟨0, rfl⟩
      | exact ⟨1, rfl⟩
      | exact ⟨2, rfl⟩
      | exact ⟨3, rfl⟩
      | exact ⟨4, rfl⟩
      | (intro h; rfl)
      | (rintro (h | h | h | h) <;> simp_all)

theorem submit_steps_ordered_abort_on_failure_witness :
    (handleSubmit sampleDraft (some "u1") "s1" 5 [] ⟨none, .ok, .ok, .ok⟩).db
      = [] :=
  (submit_steps_ordered_abort_on_failure sampleDraft (some "u1") "s1" 5 []
    ⟨none, .ok, .ok, .ok⟩).2.1 (Or.inl rfl)

/-! ## Notification-endpoint claims -/

/-- C5: `POST /api/send-email` answers 400 with an error body when any
of the four fields is missing from the request JSON, 500 when the
transport credentials (API key or secret key) are not configured, 500
when the upstream send fails, and 200 `{success: true}` on success. -/
theorem send_email_status_codes (env : EmailEnv) (r : EmailRequest)
    (up : UpstreamResult) :
    ((r.toAddr = none ∨ r.name = none ∨ r.decision = none ∨
        r.feedback = none) →
      postSendEmail env (some r) up = ⟨400, .missingFields, false⟩) ∧
    (truthyOpt r.toAddr = true → truthyOpt r.name = true →
      truthyOpt r.decision = true → truthyOpt r.feedback = true →
      ((envFalsy env.apiKey = true ∨ envFalsy env.secretKey = true) →
        postSendEmail env (some r) up = ⟨500, .notConfigured, false⟩) ∧
      (envFalsy env.apiKey = false → envFalsy env.secretKey = false →
        postSendEmail env (some r) .notOk = ⟨500, .errCaught, true⟩ ∧
        postSendEmail env (some r) .ok = ⟨200, .success, true⟩)) := by
  constructor
  · rintro (h | h | h | h) <;> simp [postSendEmail, h, truthyOpt]
  · intro h1 h2 h3 h4
    constructor
    · rintro (he | he) <;> simp [postSendEmail, h1, h2, h3, h4, he]
    · intro ha hb
      exact ⟨by simp [postSendEmail, h1, h2, h3, h4, ha, hb],
        by simp [postSendEmail, h1, h2, h3, h4, ha, hb]⟩

theorem send_email_status_codes_witness :
    postSendEmail ⟨some "key", some "secret"⟩
        (some ⟨none, some (.jstr "John"), some (.jstr "accepted"),
          some (.jstr "Great work")⟩) .ok =
      ⟨400, .missingFields, false⟩ :=
  (send_email_status_codes _ _ _).1 (Or.inl rfl)

/-- C10: a request body that has all four keys but a falsy value for any
of them — in particular an empty `feedback` string — is answered 400
`Missing required fields`, independently of the credentials and before
any send attempt. -/
theorem falsy_field_yields_400 (env : EmailEnv) (r : EmailRequest)
    (up : UpstreamResult)
    (h : truthyOpt r.toAddr = false ∨ truthyOpt r.name = false ∨
        truthyOpt r.decision = false ∨ truthyOpt r.feedback = false) :
    postSendEmail env (some r) up = ⟨400, .missingFields, false⟩ := by
  rcases h with h | h | h | h <;> simp [postSendEmail, h]

theorem falsy_field_yields_400_witness :
    postSendEmail ⟨none, none⟩
        (some ⟨some (.jstr "a@b.c"), some (.jstr "John"),
          some (.jstr "accepted"), some (.jstr "")⟩) .ok =
      ⟨400, .missingFields, false⟩ :=
  falsy_field_yields_400 _ _ _ (Or.inr (Or.inr (Or.inr (by decide))))

/-! ## Duplicate-submission claim -/

theorem filter_userId_length_one {db : List Submission} {uid : String}
    (hpw : db.Pairwise (fun a b => a.userId ≠ b.userId))
    {r : Submission} (hr : r ∈ db) (hu : r.userId = uid) :
    (db.filter (fun x => x.userId == uid)).length = 1 := by
  induction db with
  | nil => cases hr
  | cons a tl ih =>
      rw [List.pairwise_cons] at hpw
      obtain ⟨ha, htl⟩ := hpw
      rcases List.mem_cons.mp hr with rfl | hmem
      · have hnil : tl.filter (fun x => x.userId == uid) = [] := by
          rw [List.filter_eq_nil_iff]
          intro x hx hbeq
          exact ha x hx (hu.trans (eq_of_beq hbeq).symm)
        rw [List.filter_cons_of_pos (by simp [hu]), hnil]
        rfl
      · have hne : (a.userId == uid) = false := by
          rw [beq_eq_false_iff_ne]
          intro heq
          exact ha r hmem (heq.trans hu.symm)
        rw [List.filter_cons_of_neg (by simp [hne])]
        exact ih htl hmem

/-- C2: a `user_id` that already has a `Submission` row is always
detected on workflow entry: `checkAuth` leaves the submit page in the
`blockedDuplicate` state, any submit attempt from that session leaves
the table unchanged regardless of the draft's content, and re-entering
the page re-detects the block (idempotence of the
one-submission-per-developer invariant). -/
theorem duplicate_submission_always_blocked (uid : String)
    (profiles : List Profile) (db : List Submission) (p : Profile)
    (hp : profiles.find? (fun q => q.id == uid) = some p)
    (hrole : p.role = "developer")
    (hpw : db.Pairwise (fun a b => a.userId ≠ b.userId))
    (r : Submission) (hr : r ∈ db) (hu : r.userId = uid) :
    checkAuthSubmit (some uid) profiles db = .blockedDuplicate ∧
    (∀ d newId now o,
      submitSessionAttempt uid profiles db d newId now o = db) ∧
    (∀ d newId now o,
      checkAuthSubmit (some uid) profiles
        (submitSessionAttempt uid profiles db d newId now o) =
        .blockedDuplicate) := by
  have hdup : hasExistingSubmission db uid = true := by
    unfold hasExistingSubmission
    rw [filter_userId_length_one hpw hr hu]
    rfl
  have hentry : checkAuthSubmit (some uid) profiles db = .blockedDuplicate := by
    unfold checkAuthSubmit
    dsimp only
    rw [hp]
    simp [hrole, hdup]
  have hnochange : ∀ d newId now o,
      submitSessionAttempt uid profiles db d newId now o = db := by
    intro d newId now o
    unfold submitSessionAttempt
    rw [hentry]
    simp
  refine ⟨hentry, hnochange, ?_⟩
  intro d newId now o
  rw [hnochange d newId now o]
  exact hentry

theorem duplicate_submission_always_blocked_witness :
    checkAuthSubmit (some "u1") [⟨"u1", "developer"⟩] [sampleSub] =
      .blockedDuplicate :=
  (duplicate_submission_always_blocked "u1" [⟨"u1", "developer"⟩]
    [sampleSub] ⟨"u1", "developer"⟩ (by decide) rfl (by decide)
    sampleSub (by simp) rfl).1

end MoonDev
